import Mathlib

/-!
Shallow embedding of the core logic of cloud-billing-exporter.

Costs (Go float64) are modelled as exact rationals.  Go maps are modelled
as functions into Option, byte-indexed string slicing as character-level
slicing (all relevant object names are ASCII), and the external
collaborators (object store listings, object bodies, the organizations
directory API) are passed in as explicit parameters.  The exported
Prometheus counter vector is modelled as one accumulator per grouping key
(accountID-serviceName-currency), the key the per-source code uses for its
metricValues bookkeeping; Counter.Add of the pinned prometheus client
(client_golang v1.2.1) panics on a negative value, and a Go panic is
modelled throughout as an Option none result.
-/

namespace CloudBilling

/-- Zero padded decimal rendering of a natural number, as Go fmt does for
a %0wd verb on a non-negative value. -/
def natPad (w : Nat) (n : Nat) : String :=
  let s := toString n
  String.mk (List.replicate (w - s.length) '0') ++ s

/-- Zero padded decimal rendering of an integer (Go %0wd: the sign is
followed by zero padding). -/
def intPad (w : Nat) (n : Int) : String :=
  if n < 0 then "-" ++ natPad (w - 1) n.natAbs else natPad w n.natAbs

/-- Value of a decimal digit character. -/
def digitVal (c : Char) : Option Nat :=
  if c.isDigit then some (c.toNat - Char.toNat '0') else none

/-- Accumulate a decimal digit string; none as soon as one character is
not a digit. -/
def digitsVal (l : List Char) : Option Nat :=
  l.foldl (fun acc c =>
    match acc, digitVal c with
    | some a, some d => some (a * 10 + d)
    | _, _ => none) (some 0)

/-- Go strconv.Atoi restricted to plain decimal integers: optional sign,
then at least one digit, nothing else. -/
def atoi (s : String) : Option Int :=
  match s.toList with
  | [] => none
  | '+' :: rest =>
    if rest.isEmpty then none else (digitsVal rest).map Int.ofNat
  | '-' :: rest =>
    if rest.isEmpty then none else (digitsVal rest).map (fun n => -(Int.ofNat n))
  | l => (digitsVal l).map Int.ofNat

/-- Digits with at least one character. -/
def digitsValNE (l : List Char) : Option Nat :=
  if l.isEmpty then none else digitsVal l

/-- Go strings.Split with a one-character separator, on the character
list. -/
def splitChar (sep : Char) : List Char → List (List Char)
  | [] => [[]]
  | c :: rest =>
    match splitChar sep rest with
    | [] => if c = sep then [[], []] else [[c]]
    | h :: t => if c = sep then [] :: h :: t else (c :: h) :: t

/-- Go strings.Split with a one-character separator. -/
def splitString (sep : Char) (s : String) : List String :=
  (splitChar sep s.toList).map String.mk

/-- Go strconv.ParseFloat restricted to plain decimal notation
(optional sign, integer part, optional fractional part), producing an
exact rational. -/
def parseFloatQ (s : String) : Option ℚ :=
  let pos := fun (t : String) =>
    match splitString '.' t with
    | [a] => (digitsValNE a.toList).map (fun n => (n : ℚ))
    | [a, b] =>
      match digitsValNE a.toList, digitsValNE b.toList with
      | some x, some y => some ((x : ℚ) + (y : ℚ) / ((10 : ℚ) ^ b.length))
      | _, _ => none
    | _ => none
  match s.toList with
  | '-' :: rest => (pos (String.mk rest)).map (fun q => -q)
  | '+' :: rest => pos (String.mk rest)
  | _ => pos s

end CloudBilling

namespace CloudBilling.Gcp

/-- One measurement sub-object of a GCP billing element
(gcpBillingMeasurements in gcp_billing.go). -/
structure Measurement where
  unit : String
  sum : String
  measurementID : String
deriving DecidableEq, Repr

/-- Cost sub-object of a GCP billing element (gcpBillingCost). -/
structure BillingCost where
  amount : String
  currency : String
  value : ℚ
deriving DecidableEq, Repr

/-- One GCP billing element (gcpBillingElement); the unused Credits field
is omitted. -/
structure BillingElement where
  projectName : String
  projectID : String
  serviceName : String
  measurements : List Measurement
  cost : BillingCost
deriving DecidableEq, Repr

/-- gcpBillingElement.GetServiceName: the direct service name when set;
with exactly one measurement, the token after a leading services segment
of its measurement ID, else the raw measurement ID; misc otherwise. -/
def getServiceName (e : BillingElement) : String :=
  if e.serviceName ≠ "" then e.serviceName
  else
    match e.measurements with
    | [m] =>
      let parts := splitString '/' m.measurementID
      if 3 ≤ parts.length ∧ parts.getD 1 "" = "services" then parts.getD 2 ""
      else m.measurementID
    | _ => "misc"

/-- gcpBillingElement.GetValue: parse the textual amount when present and
parseable, else fall back to the numeric value field. -/
def getValue (e : BillingElement) : ℚ :=
  if e.cost.amount ≠ "" then
    match parseFloatQ e.cost.amount with
    | some v => v
    | none => e.cost.value
  else e.cost.value

/-- groupByProjectIDServiceCurrency: the grouping key string. -/
def groupKey (e : BillingElement) : String :=
  e.projectID ++ "-" ++ getServiceName e ++ "-" ++ e.cost.currency

/-- filterLastTwoMonths: the candidate object-name prefixes for the
current and the immediately preceding calendar month. -/
def filterLastTwoMonths (reportPfx : String) (year month : Int) : List String :=
  let lm := if month = 1 then ((12 : Int), year - 1) else (month - 1, year)
  [ reportPfx ++ "-" ++ intPad 4 year ++ "-" ++ intPad 2 month ++ "-",
    reportPfx ++ "-" ++ intPad 4 lm.2 ++ "-" ++ intPad 2 lm.1 ++ "-" ]

end CloudBilling.Gcp

namespace CloudBilling.Gcp

/-- The element stored by reduceElementsByFunc for a fresh key: project
fields copied, service name and value normalized, amount cleared. -/
def normalizeElem (e : BillingElement) : BillingElement :=
  { projectName := e.projectName
    projectID := e.projectID
    serviceName := getServiceName e
    measurements := []
    cost := { amount := "", currency := e.cost.currency, value := getValue e } }

/-- Add a value onto the element stored under an already-seen key. -/
def bumpKey (key : String) (v : ℚ) :
    List (String × BillingElement) → List (String × BillingElement)
  | [] => []
  | (k, e) :: rest =>
    if k = key then (k, { e with cost := { e.cost with value := e.cost.value + v } }) :: rest
    else (k, e) :: bumpKey key v rest

/-- Loop of reduceElementsByFunc: the accumulator keeps first-seen order
and remembers the key each output element was grouped under. -/
def reduceLoop (fnKey : BillingElement → String) :
    List BillingElement → List (String × BillingElement) → List (String × BillingElement)
  | [], acc => acc
  | e :: rest, acc =>
    let key := fnKey e
    if (acc.lookup key).isSome then
      reduceLoop fnKey rest (bumpKey key (getValue e) acc)
    else
      reduceLoop fnKey rest (acc ++ [(key, normalizeElem e)])

/-- reduceElementsByFunc for GCP elements. -/
def reduceElementsByFunc (l : List BillingElement) (fnKey : BillingElement → String) :
    List BillingElement :=
  (reduceLoop fnKey l []).map Prod.snd

/-- reduceElementsByProjectIDServiceCurrency. -/
def reduceElements (l : List BillingElement) : List BillingElement :=
  reduceElementsByFunc l groupKey

/-- Object metadata as used by getReportFile (name and content hash). -/
structure ObjAttrs where
  name : String
  md5 : String
deriving DecidableEq, Repr

/-- One slot of the fixed 32 slot report cache (gcpBillingReport); an
unfetched slot has no hash. -/
structure Report where
  elements : List BillingElement
  hash : Option String
deriving DecidableEq, Repr

/-- Mutable state of a GCPBilling source: report cache, its month
prefix, and the counter bookkeeping (metricValues plus the exported
counter per grouping key). -/
structure GcpState where
  reports : Fin 32 → Report
  monthPfx : String
  metricValues : String → Option ℚ
  counter : String → ℚ

/-- The two characters holding the report sequence number: bytes
[len-7, len-5) of the object name. -/
def seqSlice (s : String) : String :=
  let chars := s.toList
  String.mk ((chars.drop (chars.length - 7)).take 2)

/-- getReportFile: skip names too short for a sequence number, skip
unparseable sequence numbers, skip when the cached hash at the slot
matches, skip on a failed read or decode; otherwise decode, reduce, and
store the report at its slot.  The result is none for the untrapped
out-of-range slot index (a Go index-out-of-range panic). -/
def getReportFile (readObj : String → Except String (List BillingElement))
    (reports : Fin 32 → Report) (attrs : ObjAttrs) : Option (Fin 32 → Report) :=
  if attrs.name.toList.length < 8 then some reports
  else
    match atoi (seqSlice attrs.name) with
    | none => some reports
    | some iRaw =>
      let i := iRaw - 1
      if h : 0 ≤ i ∧ i < 32 then
        let idx : Fin 32 := ⟨i.toNat, by omega⟩
        if (reports idx).hash = some attrs.md5 then some reports
        else
          match readObj attrs.name with
          | .error _ => some reports
          | .ok elems =>
            some (fun j =>
              if j = idx then { elements := reduceElements elems, hash := some attrs.md5 }
              else reports j)
      else none

/-- Fold getReportFile over the listed objects of the chosen prefix. -/
def processObjects (readObj : String → Except String (List BillingElement)) :
    (Fin 32 → Report) → List ObjAttrs → Option (Fin 32 → Report)
  | reports, [] => some reports
  | reports, a :: rest =>
    match getReportFile readObj reports a with
    | none => none
    | some r2 => processObjects readObj r2 rest

/-- The prefix-probing loop of GetReports: the first prefix whose listing
yields at least one object wins, an empty listing falls through to the
next prefix, a listing error aborts. -/
def firstNonEmpty (listing : String → Except String (List ObjAttrs)) :
    List String → Except String (Option (String × List ObjAttrs))
  | [] => .ok none
  | p :: rest =>
    match listing p with
    | .error e => .error ("Failed to list objects: " ++ e)
    | .ok [] => firstNonEmpty listing rest
    | .ok (a :: objs) => .ok (some (p, a :: objs))

/-- GetReports: probe the candidate prefixes; with no object anywhere
return success with nothing changed; on a prefix change invalidate the
whole report cache; then fetch every listed object.  none models a panic
inside getReportFile. -/
def getReports (listing : String → Except String (List ObjAttrs))
    (readObj : String → Except String (List BillingElement))
    (pfxs : List String) (st : GcpState) : Option (Except String Unit × GcpState) :=
  match firstNonEmpty listing pfxs with
  | .error e => some (.error e, st)
  | .ok none => some (.ok (), st)
  | .ok (some (p, objs)) =>
    let st1 :=
      if st.monthPfx ≠ p then
        { st with monthPfx := p, reports := fun _ => { elements := [], hash := none } }
      else st
    (processObjects readObj st1.reports objs).map
      (fun r2 => (.ok (), { st1 with reports := r2 }))

/-- The counter update of OldQuery for one aggregated element: create the
metricValues entry at 0 when missing, then skip on a negative delta
(leaving the stored value alone), else add the delta to the exported
counter and store the new cumulative value. -/
def applyElem (st : GcpState) (e : BillingElement) : GcpState :=
  let key := groupKey e
  let mv0 :=
    if (st.metricValues key).isSome then st.metricValues
    else fun k => if k = key then some 0 else st.metricValues k
  let value := getValue e
  let delta := value - (mv0 key).getD 0
  if delta < 0 then { st with metricValues := mv0 }
  else
    { st with
      metricValues := fun k => if k = key then some value else mv0 k
      counter := fun k => if k = key then st.counter k + delta else st.counter k }

/-- Concatenate the cached elements of all 32 report slots in order. -/
def gatherElems (reports : Fin 32 → Report) : List BillingElement :=
  (List.finRange 32).foldr (fun i acc => (reports i).elements ++ acc) []

/-- OldQuery: refresh the report cache from the object store, then reduce
all cached elements and reconcile them against metricValues.  Metadata
refresh errors are only logged and resolved metadata only feeds label
values, so it does not appear in this state model. -/
def oldQuery (listing : String → Except String (List ObjAttrs))
    (readObj : String → Except String (List BillingElement))
    (pfxs : List String) (st : GcpState) : Option (Except String Unit × GcpState) :=
  match getReports listing readObj pfxs st with
  | none => none
  | some (.error e, st2) => some (.error e, st2)
  | some (.ok _, st1) =>
    let elems := reduceElements (gatherElems st1.reports)
    some (.ok (), elems.foldl applyElem st1)

end CloudBilling.Gcp

namespace CloudBilling.Gcp

/-- One entry of the GCP resource metadata cache (resourceMetadata in
resources_metadata.go). -/
structure ResourceMetadata where
  id : String
  displayName : String
  owner : String
  costCentre : String
  parent : String
deriving DecidableEq, Repr

/-- resourcesMetadata.path with explicit fuel: the source recursion
carries no cycle guard, so fuel exhaustion (none) models
non-termination.  A node with an empty or unresolvable parent pointer is
a root and yields the empty path; otherwise the parent path is extended
with the parent display name. -/
def pathFuel (metadataByID : String → Option ResourceMetadata) :
    Nat → ResourceMetadata → Option (List String)
  | 0, _ => none
  | f + 1, e =>
    if e.parent ≠ "" then
      match metadataByID e.parent with
      | some p => (pathFuel metadataByID f p).map (fun l => l ++ [p.displayName])
      | none => some []
    else some []

/-- The ancestor walk from e terminates: some fuel makes it produce a
path. -/
def pathTerminates (metadataByID : String → Option ResourceMetadata)
    (e : ResourceMetadata) : Prop :=
  ∃ f, (pathFuel metadataByID f e).isSome

/-- The parent chain from e reaches a root (empty or unresolvable parent
pointer) within the given number of steps. -/
def rootWithin (metadataByID : String → Option ResourceMetadata) :
    Nat → ResourceMetadata → Bool
  | 0, _ => false
  | f + 1, e =>
    if e.parent = "" then true
    else
      match metadataByID e.parent with
      | none => true
      | some p => rootWithin metadataByID f p

end CloudBilling.Gcp

namespace CloudBilling.Aws

/-- One AWS billing line item (awsBillingElement). -/
structure BillingElement where
  projectName : String
  projectID : String
  serviceName : String
  costs : ℚ
  currency : String
deriving DecidableEq, Repr

/-- groupByProjectIDServiceCurrency for AWS elements. -/
def groupKey (e : BillingElement) : String :=
  e.projectID ++ "-" ++ e.serviceName ++ "-" ++ e.currency

/-- Add a cost onto the element stored under an already-seen key. -/
def bumpKey (key : String) (v : ℚ) :
    List (String × BillingElement) → List (String × BillingElement)
  | [] => []
  | (k, e) :: rest =>
    if k = key then (k, { e with costs := e.costs + v }) :: rest
    else (k, e) :: bumpKey key v rest

/-- Loop of the AWS reduceElementsByFunc (first-seen output order, new
keys copy the element, seen keys accumulate costs). -/
def reduceLoop (fnKey : BillingElement → String) :
    List BillingElement → List (String × BillingElement) → List (String × BillingElement)
  | [], acc => acc
  | e :: rest, acc =>
    let key := fnKey e
    if (acc.lookup key).isSome then
      reduceLoop fnKey rest (bumpKey key e.costs acc)
    else
      reduceLoop fnKey rest (acc ++ [(key, e)])

/-- reduceElementsByFunc for AWS elements. -/
def reduceElementsByFunc (l : List BillingElement) (fnKey : BillingElement → String) :
    List BillingElement :=
  (reduceLoop fnKey l []).map Prod.snd

/-- Column position map of readCSV: a Go map from header field to column
index, seeded with RecordType at -1; a missing field reads as 0. -/
def posGet (pos : List (String × Int)) (k : String) : Int :=
  (pos.lookup k).getD 0

/-- Replace or append one position entry. -/
def setPos (pos : List (String × Int)) (k : String) (v : Int) : List (String × Int) :=
  if (pos.lookup k).isSome then
    pos.map (fun kv => if kv.1 = k then (k, v) else kv)
  else pos ++ [(k, v)]

/-- Record the column index of every field of the header row. -/
def headerPos (pos : List (String × Int)) (r : List String) : List (String × Int) :=
  r.enum.foldl (fun acc fi => setPos acc fi.2 (Int.ofNat fi.1)) pos

/-- Field access into a CSV record; encoding/csv guarantees uniform
record lengths, out of range reads as empty. -/
def recGet (r : List String) (i : Int) : String :=
  if i < 0 then "" else r.getD i.toNat ""

/-- Row loop of readCSV over the parsed records: the first row while
RecordType is still -1 is the header; rows whose RecordType column is not
LinkedLineItem are skipped; rows whose TotalCost does not parse are
skipped with a warning; the rest become billing elements. -/
def csvLoop : List (List String) → List (String × Int) → List BillingElement → List BillingElement
  | [], _, acc => acc
  | r :: rest, pos, acc =>
    if posGet pos "RecordType" = -1 then
      csvLoop rest (headerPos pos r) acc
    else if recGet r (posGet pos "RecordType") ≠ "LinkedLineItem" then
      csvLoop rest pos acc
    else
      match parseFloatQ (recGet r (posGet pos "TotalCost")) with
      | none => csvLoop rest pos acc
      | some c =>
        csvLoop rest pos (acc ++
          [{ projectName := ""
             projectID := recGet r (posGet pos "LinkedAccountId")
             serviceName := recGet r (posGet pos "ProductCode")
             costs := c
             currency := recGet r (posGet pos "CurrencyCode") }])

/-- readCSV: the csv reader either fails (propagated error) or yields the
records, which are filtered, parsed and reduced by grouping key. -/
def readCSV (src : Except String (List (List String))) : Except String (List BillingElement) :=
  src.map (fun records =>
    reduceElementsByFunc (csvLoop records [("RecordType", -1)] []) groupKey)

/-- AccountNameByID: a manually configured override wins, then the
(possibly refreshed) organizations API mapping, then the synthesized
unknown placeholder. -/
def accountNameByID (override api : String → Option String) (id : String) : String :=
  match override id with
  | some v => v
  | none =>
    match api id with
    | some v => v
    | none => "unknown-" ++ id

end CloudBilling.Aws

namespace CloudBilling.Aws

/-- Mutable state of an AWSBilling source: the last parsed report hash
and the counter bookkeeping (metricValues plus the exported counter per
grouping key). -/
structure AwsState where
  reportHash : String
  metricValues : String → Option ℚ
  counter : String → ℚ

/-- External collaborators of one Query run: the resolved root account
ID, the S3 listing (key and ETag pairs), the object download (whose body
is a csv source: either a reader error discovered while parsing, or the
parsed records), and the body close result. -/
structure AwsEnv where
  rootAccountID : String
  listResult : Except String (List (String × String))
  getObject : String → Except String (Except String (List (List String)))
  closeResult : String → Except String Unit

/-- Selection of the billing object: the lexicographically greatest key
wins, first seen on ties. -/
def selectObject (objs : List (String × String)) : Option (String × String) :=
  objs.foldl (fun best o =>
    match best with
    | none => some o
    | some b => if b.1 < o.1 then some o else some b) none

/-- The counter update of Query for one aggregated element: create the
metricValues entry at 0 when missing, then hand the delta to the exported
counter.  The prometheus Counter.Add (client_golang v1.2.1) panics on a
negative value, so a negative delta crashes the pass before the counter
or the stored value is touched: that panic is modelled as none.  A
non-negative delta is added and the new cumulative value stored. -/
def applyElem (st : AwsState) (e : BillingElement) : Option AwsState :=
  let key := groupKey e
  let mv0 :=
    if (st.metricValues key).isSome then st.metricValues
    else fun k => if k = key then some 0 else st.metricValues k
  let value := e.costs
  let delta := value - (mv0 key).getD 0
  if delta < 0 then none
  else
    some { st with
      metricValues := fun k => if k = key then some value else mv0 k
      counter := fun k => if k = key then st.counter k + delta else st.counter k }

/-- The counter-update loop of Query: applies the elements in order, a
panic aborting the rest. -/
def applyElems (st : AwsState) : List BillingElement → Option AwsState
  | [] => some st
  | e :: rest =>
    match applyElem st e with
    | none => none
    | some st2 => applyElems st2 rest

/-- AWSBilling.Query: list, select the newest report, short-circuit on an
unchanged content hash, download, parse, apply every element to the
counters, then record the report hash.  The outer none models a panic in
the counter loop; the boolean of the result is true exactly when readCSV
ran on a downloaded body. -/
def query (env : AwsEnv) (st : AwsState) : Option (Except String Unit × AwsState × Bool) :=
  match env.listResult with
  | .error e => some (.error ("Error listing AWS bucket: " ++ e), st, false)
  | .ok objs =>
    match selectObject objs with
    | none =>
      some (.error ("No billing report for account " ++ env.rootAccountID ++ " found"),
        st, false)
    | some kh =>
      if st.reportHash = kh.2 then some (.ok (), st, false)
      else
        match env.getObject kh.1 with
        | .error e => some (.error ("Error download billing report: " ++ e), st, false)
        | .ok csvSrc =>
          match readCSV csvSrc with
          | .error e => some (.error ("Error parsing CSV billing report: " ++ e), st, true)
          | .ok elems =>
            match env.closeResult kh.1 with
            | .error e => some (.error e, st, true)
            | .ok _ =>
              (applyElems st elems).map
                (fun st1 => (.ok (), { st1 with reportHash := kh.2 }, true))

end CloudBilling.Aws

namespace CloudBilling.AwsOrg

/-- Kind of a node of the AWS organizations tree. -/
inductive AccountType where
  | project
  | organizationUnit
  | organization
deriving DecidableEq, Repr

/-- One account of the organizations directory (Account in the aws
package), with its joined ancestor path. -/
structure Account where
  id : String
  name : String
  owner : String
  parent : String
  pathStr : String
  type : AccountType
deriving DecidableEq, Repr

/-- AccountByID after the cache refresh: the API mapping provides the
base account, a configured override replaces (or, with no API entry,
seeds) the name, and with neither an unknown placeholder is
synthesized. -/
def accountByID (override : String → Option String)
    (api : String → Option Account) (id : String) : Account :=
  let base := api id
  match override id with
  | some v =>
    match base with
    | some a => { a with name := v }
    | none =>
      { id := id, name := v, owner := "", parent := "", pathStr := "", type := .project }
  | none =>
    match base with
    | some a => a
    | none =>
      { id := id, name := "unknown-" ++ id, owner := "", parent := "", pathStr := ""
        type := .project }

/-- The account stored by one iteration of the refresh loop: its joined
ancestor path when the walk succeeded, the account untouched (warning
logged) when it failed. -/
def resolvePath (pathOf : Account → Except String (List String)) (ac : Account) : Account :=
  match pathOf ac with
  | .error _ => ac
  | .ok p => { ac with pathStr := String.intercalate "/" p }

/-- The per-account loop of getAccountNameByIDAPI: every listed account
is entered into the mapping; a failed ancestor-path resolution only
leaves that account without a path (logged) and the loop continues. -/
def processAccounts (pathOf : Account → Except String (List String)) :
    List Account → (String → Option Account) → (String → Option Account)
  | [], m => m
  | ac :: rest, m =>
    let ac2 := resolvePath pathOf ac
    processAccounts pathOf rest (fun k => if k = ac2.id then some ac2 else m k)

end CloudBilling.AwsOrg

namespace CloudBilling

/-- Regression-guard scenario state for the GCP reconciler: the key
111-s3-usd was last observed at 100. -/
def regGcpState : Gcp.GcpState :=
  { reports := fun _ => { elements := [], hash := none }
    monthPfx := ""
    metricValues := fun k => if k = "111-s3-usd" then some 100 else none
    counter := fun _ => 0 }

/-- Regression-guard scenario element: cumulative cost 80 for the same
key. -/
def regGcpElem : Gcp.BillingElement :=
  { projectName := "", projectID := "111", serviceName := "s3", measurements := []
    cost := { amount := "", currency := "usd", value := 80 } }

/-- Regression-guard scenario state for the AWS reconciler. -/
def regAwsState : Aws.AwsState :=
  { reportHash := ""
    metricValues := fun k => if k = "111-s3-usd" then some 100 else none
    counter := fun _ => 0 }

/-- Regression-guard scenario element for the AWS reconciler. -/
def regAwsElem : Aws.BillingElement :=
  { projectName := "", projectID := "111", serviceName := "s3", costs := 80
    currency := "usd" }

/-- C1 counterexample: the AWS reconciliation loop has no negative-delta
guard: with last observed value 100 and fresh cumulative cost 80 it hands
the negative delta -20 straight to the prometheus counter, whose Add
panics, crashing the pass.  The program neither applies a delta of 0 nor
carries on with the stored value 100 unchanged. -/
theorem claim1_counterexample :
    Aws.applyElem regAwsState regAwsElem = none ∧
    Aws.applyElem regAwsState regAwsElem ≠ some regAwsState := by
  have h : Aws.applyElem regAwsState regAwsElem = none := by
    simp [Aws.applyElem, Aws.groupKey, regAwsState, regAwsElem]
    norm_num
  rw [h]
  exact ⟨rfl, by simp⟩

/-- C1 amended: only the GCP reconciler (OldQuery) skips a decreasing
cumulative value, applying no delta and leaving both the counter and the
stored last-observed value untouched; the AWS Query has no such guard and
feeds the negative delta to the prometheus counter, whose Add panics, so
the AWS pass crashes on a cost regression instead of skipping it. -/
theorem claim1_amended_negative_delta :
    (∀ (st : Gcp.GcpState) (e : Gcp.BillingElement) (last : ℚ),
        st.metricValues (Gcp.groupKey e) = some last →
        Gcp.getValue e < last →
        Gcp.applyElem st e = st) ∧
    (∀ (st : Aws.AwsState) (e : Aws.BillingElement) (last : ℚ),
        st.metricValues (Aws.groupKey e) = some last →
        e.costs < last →
        Aws.applyElem st e = none) := by
  constructor
  · intro st e last h hlt
    unfold Gcp.applyElem
    simp only [h, Option.isSome_some, if_true, Option.getD_some]
    rw [if_pos (by linarith)]
  · intro st e last h hlt
    unfold Aws.applyElem
    simp only [h, Option.isSome_some, if_true, Option.getD_some]
    rw [if_pos (by linarith)]

/-- C1 amended witness: the regression-guard scenario, on both
reconcilers. -/
theorem claim1_amended_negative_delta_witness :
    Gcp.applyElem regGcpState regGcpElem = regGcpState ∧
    Aws.applyElem regAwsState regAwsElem = none := by
  refine ⟨claim1_amended_negative_delta.1 regGcpState regGcpElem 100 ?_ ?_,
    claim1_amended_negative_delta.2 regAwsState regAwsElem 100 ?_ ?_⟩
  · simp [regGcpState, Gcp.groupKey, Gcp.getServiceName, regGcpElem]
  · simp [Gcp.getValue, regGcpElem]; norm_num
  · simp [regAwsState, Aws.groupKey, regAwsElem]
  · show regAwsElem.costs < 100
    norm_num [regAwsElem]

end CloudBilling

namespace CloudBilling

/-- C6: filterLastTwoMonths always returns exactly the current month
prefix followed by the previous month prefix, wrapping the year in
January, and matches the two concrete scenarios of the spec. -/
theorem claim6_two_month_prefixes :
    Gcp.filterLastTwoMonths "prefix" 2017 1 = ["prefix-2017-01-", "prefix-2016-12-"] ∧
    Gcp.filterLastTwoMonths "prefix" 2016 7 = ["prefix-2016-07-", "prefix-2016-06-"] ∧
    ∀ (p : String) (y m : Int),
      Gcp.filterLastTwoMonths p y m =
        [p ++ "-" ++ intPad 4 y ++ "-" ++ intPad 2 m ++ "-",
         p ++ "-" ++ intPad 4 (if m = 1 then y - 1 else y) ++ "-" ++
           intPad 2 (if m = 1 then 12 else m - 1) ++ "-"] ∧
      (Gcp.filterLastTwoMonths p y m).length = 2 := by
  refine ⟨by decide, by decide, ?_⟩
  intro p y m
  unfold Gcp.filterLastTwoMonths
  by_cases h : m = 1 <;> simp [h]

/-- C7 counterexample: an element with no direct service name and a
single measurement whose ID does not contain a services segment is
labelled with the raw measurement ID, not with misc. -/
theorem claim7_counterexample :
    Gcp.getServiceName
      { projectName := "", projectID := "p", serviceName := ""
        measurements := [{ unit := "", sum := "", measurementID := "a/b" }]
        cost := { amount := "", currency := "usd", value := 0 } } = "a/b" ∧
    Gcp.getServiceName
      { projectName := "", projectID := "p", serviceName := ""
        measurements := [{ unit := "", sum := "", measurementID := "a/b" }]
        cost := { amount := "", currency := "usd", value := 0 } } ≠ "misc" := by
  constructor <;> decide

/-- C7 amended: with an empty direct service name, misc is used exactly
when the element does not have exactly one measurement; with exactly one
measurement, the token after a leading services segment is used when the
ID has that shape, and otherwise the raw measurement ID itself (not
misc). -/
theorem claim7_amended_service_name :
    (∀ e : Gcp.BillingElement, e.serviceName ≠ "" → Gcp.getServiceName e = e.serviceName) ∧
    (∀ e : Gcp.BillingElement, e.serviceName = "" → e.measurements.length ≠ 1 →
        Gcp.getServiceName e = "misc") ∧
    (∀ (e : Gcp.BillingElement) (m : Gcp.Measurement), e.serviceName = "" →
        e.measurements = [m] →
        Gcp.getServiceName e =
          (if 3 ≤ (splitString '/' m.measurementID).length ∧
              (splitString '/' m.measurementID).getD 1 "" = "services"
           then (splitString '/' m.measurementID).getD 2 ""
           else m.measurementID)) := by
  refine ⟨?_, ?_, ?_⟩
  · intro e h
    unfold Gcp.getServiceName
    rw [if_pos h]
  · intro e h hm
    unfold Gcp.getServiceName
    rw [if_neg (by simp [h])]
    cases he : e.measurements with
    | nil => rfl
    | cons m rest =>
      cases rest with
      | nil => rw [he] at hm; exact absurd rfl hm
      | cons m2 rest2 => rfl
  · intro e m h hm
    unfold Gcp.getServiceName
    rw [if_neg (by simp [h]), hm]

/-- C7 amended witness: the three derivation shapes at concrete
elements. -/
theorem claim7_amended_service_name_witness :
    Gcp.getServiceName
      { projectName := "", projectID := "p", serviceName := "direct", measurements := []
        cost := { amount := "", currency := "usd", value := 0 } } = "direct" ∧
    Gcp.getServiceName
      { projectName := "", projectID := "p", serviceName := "", measurements := []
        cost := { amount := "", currency := "usd", value := 0 } } = "misc" ∧
    Gcp.getServiceName
      { projectName := "", projectID := "p", serviceName := ""
        measurements := [{ unit := "", sum := "", measurementID := "x/services/compute" }]
        cost := { amount := "", currency := "usd", value := 0 } } =
      (if 3 ≤ (splitString '/' "x/services/compute").length ∧
          (splitString '/' "x/services/compute").getD 1 "" = "services"
       then (splitString '/' "x/services/compute").getD 2 ""
       else "x/services/compute") := by
  refine ⟨claim7_amended_service_name.1 _ (by decide),
    claim7_amended_service_name.2.1 _ (by decide) (by decide),
    claim7_amended_service_name.2.2 _
      { unit := "", sum := "", measurementID := "x/services/compute" } (by decide) (by decide)⟩

/-- C8: a manually configured override mapping always wins over the
directory-service data, in both the historical AccountNameByID and the
newer AccountByID resolution. -/
theorem claim8_override_precedence :
    (∀ (override api : String → Option String) (id v : String),
        override id = some v → Aws.accountNameByID override api id = v) ∧
    (∀ (override : String → Option String) (api : String → Option AwsOrg.Account)
        (id v : String),
        override id = some v → (AwsOrg.accountByID override api id).name = v) := by
  constructor
  · intro override api id v h
    unfold Aws.accountNameByID
    rw [h]
  · intro override api id v h
    unfold AwsOrg.accountByID
    rw [h]
    cases api id <;> rfl

/-- C8 witness: override 111 to acme-dev beats the directory name
legacy-name. -/
theorem claim8_override_precedence_witness :
    Aws.accountNameByID (fun k => if k = "111" then some "acme-dev" else none)
      (fun k => if k = "111" then some "legacy-name" else none) "111" = "acme-dev" ∧
    (AwsOrg.accountByID (fun k => if k = "111" then some "acme-dev" else none)
      (fun k =>
        if k = "111" then
          some { id := "111", name := "legacy-name", owner := "", parent := ""
                 pathStr := "", type := .project }
        else none) "111").name = "acme-dev" := by
  exact ⟨claim8_override_precedence.1 _ _ "111" "acme-dev" (by decide),
    claim8_override_precedence.2 _ _ "111" "acme-dev" (by decide)⟩

/-- C9: with neither an override nor a directory-service entry, both
resolutions synthesize the placeholder name unknown-id and cannot
fail. -/
theorem claim9_unknown_placeholder :
    (∀ (override api : String → Option String) (id : String),
        override id = none → api id = none →
        Aws.accountNameByID override api id = "unknown-" ++ id) ∧
    (∀ (override : String → Option String) (api : String → Option AwsOrg.Account)
        (id : String),
        override id = none → api id = none →
        (AwsOrg.accountByID override api id).name = "unknown-" ++ id) := by
  constructor
  · intro override api id h1 h2
    unfold Aws.accountNameByID
    rw [h1, h2]
  · intro override api id h1 h2
    unfold AwsOrg.accountByID
    rw [h1, h2]

/-- C9 witness: resolving 999 against empty mappings yields
unknown-999. -/
theorem claim9_unknown_placeholder_witness :
    Aws.accountNameByID (fun _ => none) (fun _ => none) "999" = "unknown-999" ∧
    (AwsOrg.accountByID (fun _ => none) (fun _ => none) "999").name = "unknown-999" := by
  exact ⟨claim9_unknown_placeholder.1 (fun _ => none) (fun _ => none) "999" rfl rfl,
    claim9_unknown_placeholder.2 (fun _ => none) (fun _ => none) "999" rfl rfl⟩

end CloudBilling

namespace CloudBilling

/-- Probing prefixes whose listings are all empty finds nothing. -/
theorem firstNonEmpty_all_empty (listing : String → Except String (List Gcp.ObjAttrs)) :
    ∀ pfxs : List String, (∀ p ∈ pfxs, listing p = .ok []) →
      Gcp.firstNonEmpty listing pfxs = .ok none := by
  intro pfxs
  induction pfxs with
  | nil => intro _; rfl
  | cons p rest ih =>
    intro h
    unfold Gcp.firstNonEmpty
    rw [h p (by simp)]
    exact ih (fun q hq => h q (by simp [hq]))

/-- C2: an object name too short to hold a sequence number is skipped
with the report cache unchanged; a sequence number that does not parse
as an integer is skipped likewise; a skipped object does not stop the
processing of the remaining objects; and a run in which every candidate
prefix lists zero objects returns success with the state untouched. -/
theorem claim2_parse_failures_skipped :
    (∀ (readObj : String → Except String (List Gcp.BillingElement))
        (r : Fin 32 → Gcp.Report) (a : Gcp.ObjAttrs),
        a.name.toList.length < 8 → Gcp.getReportFile readObj r a = some r) ∧
    (∀ (readObj : String → Except String (List Gcp.BillingElement))
        (r : Fin 32 → Gcp.Report) (a : Gcp.ObjAttrs),
        ¬ a.name.toList.length < 8 → atoi (Gcp.seqSlice a.name) = none →
        Gcp.getReportFile readObj r a = some r) ∧
    (∀ (readObj : String → Except String (List Gcp.BillingElement))
        (r : Fin 32 → Gcp.Report) (a : Gcp.ObjAttrs) (objs : List Gcp.ObjAttrs),
        a.name.toList.length < 8 →
        Gcp.processObjects readObj r (a :: objs) = Gcp.processObjects readObj r objs) ∧
    (∀ (listing : String → Except String (List Gcp.ObjAttrs))
        (readObj : String → Except String (List Gcp.BillingElement))
        (pfxs : List String) (st : Gcp.GcpState),
        (∀ p ∈ pfxs, listing p = .ok []) →
        Gcp.getReports listing readObj pfxs st = some (.ok (), st)) := by
  have hshort : ∀ (readObj : String → Except String (List Gcp.BillingElement))
      (r : Fin 32 → Gcp.Report) (a : Gcp.ObjAttrs),
      a.name.toList.length < 8 → Gcp.getReportFile readObj r a = some r := by
    intro readObj r a h
    unfold Gcp.getReportFile
    rw [if_pos h]
  refine ⟨hshort, ?_, ?_, ?_⟩
  · intro readObj r a h hatoi
    unfold Gcp.getReportFile
    rw [if_neg h, hatoi]
  · intro readObj r a objs h
    simp only [Gcp.processObjects, hshort readObj r a h]
  · intro listing readObj pfxs st h
    unfold Gcp.getReports
    rw [firstNonEmpty_all_empty listing pfxs h]

/-- C2 witness: a too-short name, a non-numeric sequence number, the
continuation past a bad object, and an all-empty listing, each at a
concrete input. -/
theorem claim2_parse_failures_skipped_witness :
    Gcp.getReportFile (fun _ => .error "io") (fun _ => { elements := [], hash := none })
      { name := "short", md5 := "m" } = some (fun _ => { elements := [], hash := none }) ∧
    Gcp.getReportFile (fun _ => .error "io") (fun _ => { elements := [], hash := none })
      { name := "x-ab.json", md5 := "m" } = some (fun _ => { elements := [], hash := none }) ∧
    Gcp.processObjects (fun _ => .error "io") (fun _ => { elements := [], hash := none })
      [{ name := "short", md5 := "m" }, { name := "also-short-xx.json", md5 := "m" }] =
      Gcp.processObjects (fun _ => .error "io") (fun _ => { elements := [], hash := none })
        [{ name := "also-short-xx.json", md5 := "m" }] ∧
    Gcp.getReports (fun _ => .ok []) (fun _ => .error "io") ["p-2017-01-", "p-2016-12-"]
        { reports := fun _ => { elements := [], hash := none }, monthPfx := ""
          metricValues := fun _ => none, counter := fun _ => 0 } =
      some (.ok (),
        { reports := fun _ => { elements := [], hash := none }, monthPfx := ""
          metricValues := fun _ => none, counter := fun _ => 0 }) := by
  refine ⟨claim2_parse_failures_skipped.1 _ _ _ (by decide),
    claim2_parse_failures_skipped.2.1 _ _ _ (by decide) (by decide),
    claim2_parse_failures_skipped.2.2.1 _ _ _ _ (by decide),
    claim2_parse_failures_skipped.2.2.2 _ _ _ _ (fun p _ => rfl)⟩

end CloudBilling

namespace CloudBilling

/-- A two-node parent cycle: node a points to b and node b back to a. -/
def cycMetaA : Gcp.ResourceMetadata :=
  { id := "a", displayName := "A", owner := "", costCentre := "", parent := "b" }

/-- The partner node of the cycle. -/
def cycMetaB : Gcp.ResourceMetadata :=
  { id := "b", displayName := "B", owner := "", costCentre := "", parent := "a" }

/-- The metadata mapping holding the cycle. -/
def cycMap : String → Option Gcp.ResourceMetadata :=
  fun k => if k = "a" then some cycMetaA else if k = "b" then some cycMetaB else none

/-- On the cyclic mapping the walk consumes any amount of fuel without
producing a path. -/
theorem cycMap_pathFuel_none :
    ∀ f, Gcp.pathFuel cycMap f cycMetaA = none ∧ Gcp.pathFuel cycMap f cycMetaB = none := by
  intro f
  induction f with
  | zero => exact ⟨rfl, rfl⟩
  | succ f ih =>
    constructor
    · show Gcp.pathFuel cycMap (f + 1) cycMetaA = none
      unfold Gcp.pathFuel
      have h1 : cycMap cycMetaA.parent = some cycMetaB := by decide
      rw [if_pos (by decide), h1]
      simp [ih.2]
    · show Gcp.pathFuel cycMap (f + 1) cycMetaB = none
      unfold Gcp.pathFuel
      have h1 : cycMap cycMetaB.parent = some cycMetaA := by decide
      rw [if_pos (by decide), h1]
      simp [ih.1]

/-- C3 counterexample: the ancestor walk of resourcesMetadata.path has no
visited-set or depth guard, so on a mapping with a parent cycle it never
terminates: no amount of fuel makes it produce a result. -/
theorem claim3_counterexample : ¬ Gcp.pathTerminates cycMap cycMetaA := by
  rintro ⟨f, h⟩
  rw [(cycMap_pathFuel_none f).1] at h
  simp at h

/-- Once a key is present, the refresh loop never removes it. -/
theorem processAccounts_preserves (pathOf : AwsOrg.Account → Except String (List String)) :
    ∀ (accounts : List AwsOrg.Account) (m : String → Option AwsOrg.Account) (k : String),
      (m k).isSome → (AwsOrg.processAccounts pathOf accounts m k).isSome := by
  intro accounts
  induction accounts with
  | nil => intro m k h; exact h
  | cons ac rest ih =>
    intro m k h
    unfold AwsOrg.processAccounts
    apply ih
    dsimp only
    by_cases hk : k = (AwsOrg.resolvePath pathOf ac).id
    · rw [if_pos hk]
      rfl
    · rw [if_neg hk]
      exact h

/-- Resolving the path of one account never changes its ID. -/
theorem resolvePath_id (pathOf : AwsOrg.Account → Except String (List String))
    (ac : AwsOrg.Account) : (AwsOrg.resolvePath pathOf ac).id = ac.id := by
  unfold AwsOrg.resolvePath
  cases pathOf ac <;> rfl

/-- C3 amended: the walk does terminate whenever the parent chain reaches
a root (an empty or unresolvable parent pointer) in finitely many steps,
stopping there; and in the AWS refresh loop a failed ancestor-path
resolution aborts only that account (it is still entered into the
mapping and the remaining accounts are still processed); but a parent
cycle makes the walk non-terminating. -/
theorem claim3_amended_walk_termination :
    (∀ (m : String → Option Gcp.ResourceMetadata) (f : Nat) (e : Gcp.ResourceMetadata),
        Gcp.rootWithin m f e = true → (Gcp.pathFuel m f e).isSome) ∧
    (∀ (pathOf : AwsOrg.Account → Except String (List String))
        (accounts : List AwsOrg.Account) (m0 : String → Option AwsOrg.Account)
        (a : AwsOrg.Account), a ∈ accounts →
        (AwsOrg.processAccounts pathOf accounts m0 a.id).isSome) := by
  constructor
  · intro m f
    induction f with
    | zero => intro e h; exact absurd h (by simp [Gcp.rootWithin])
    | succ f ih =>
      intro e h
      unfold Gcp.pathFuel
      unfold Gcp.rootWithin at h
      by_cases hp : e.parent = ""
      · rw [if_neg (by simp [hp])]
        rfl
      · rw [if_pos hp]
        rw [if_neg hp] at h
        cases hm : m e.parent with
        | none => rfl
        | some p =>
          rw [hm] at h
          have hi := ih p h
          rcases hq : Gcp.pathFuel m f p with _ | v
          · rw [hq] at hi
            exact absurd hi (by simp)
          · simp [hq]
  · intro pathOf accounts
    induction accounts with
    | nil => intro m0 a ha; exact absurd ha (List.not_mem_nil a)
    | cons ac rest ih =>
      intro m0 a ha
      unfold AwsOrg.processAccounts
      rcases List.mem_cons.mp ha with rfl | hmem
      · apply processAccounts_preserves pathOf rest
        dsimp only
        rw [if_pos (resolvePath_id pathOf a).symm]
        rfl
      · exact ih _ a hmem

/-- C3 amended witness: a one-step chain to a root terminates, and one
failing account still lands in the refreshed mapping. -/
theorem claim3_amended_walk_termination_witness :
    (Gcp.rootWithin (fun _ => none) 1
        { id := "r", displayName := "R", owner := "", costCentre := "", parent := "" } = true ∧
      (Gcp.pathFuel (fun _ => none) 1
        { id := "r", displayName := "R", owner := "", costCentre := "", parent := "" }).isSome) ∧
    (AwsOrg.processAccounts (fun _ => .error "path failure") 
        [{ id := "111", name := "acme", owner := "", parent := "", pathStr := ""
           type := .project }]
        (fun _ => none) "111").isSome := by
  refine ⟨⟨by decide, claim3_amended_walk_termination.1 _ 1 _ (by decide)⟩, ?_⟩
  have h : ("111" : String) =
      AwsOrg.Account.id { id := "111", name := "acme", owner := "", parent := ""
                          pathStr := "", type := .project } := rfl
  rw [h]
  exact claim3_amended_walk_termination.2 _ _ _ _ (by simp)

/-- Every produced result of Query is either a success or carries back
the input state untouched (a panic produces no result at all). -/
theorem query_ok_or_unchanged (env : Aws.AwsEnv) (st : Aws.AwsState) :
    ∀ out, Aws.query env st = some out → out.1 = .ok () ∨ out.2.1 = st := by
  intro out h
  unfold Aws.query at h
  repeat' split at h
  all_goals
    first
    | (simp only [Option.some.injEq] at h
       rw [← h]
       simp)
    | (rw [Option.map_eq_some'] at h
       obtain ⟨st1, -, h2⟩ := h
       rw [← h2]
       simp)

/-- GetReports hands back the input state on a listing error. -/
theorem getReports_error_state (listing : String → Except String (List Gcp.ObjAttrs))
    (readObj : String → Except String (List Gcp.BillingElement))
    (pfxs : List String) (st : Gcp.GcpState) (e : String) (st2 : Gcp.GcpState)
    (h : Gcp.getReports listing readObj pfxs st = some (.error e, st2)) : st2 = st := by
  unfold Gcp.getReports at h
  rcases hf : Gcp.firstNonEmpty listing pfxs with er | opt
  · rw [hf] at h
    simp only [Option.some.injEq, Prod.mk.injEq, Except.error.injEq] at h
    exact h.2.symm
  · rcases opt with _ | ⟨p, objs⟩
    · rw [hf] at h
      exact absurd h (by simp)
    · rw [hf] at h
      simp only [Option.map_eq_some', Prod.mk.injEq] at h
      obtain ⟨r2, -, h1, -⟩ := h
      exact absurd h1 (by simp)

/-- GetReports never touches the counter bookkeeping, whatever it
returns. -/
theorem getReports_metric_frame (listing : String → Except String (List Gcp.ObjAttrs))
    (readObj : String → Except String (List Gcp.BillingElement))
    (pfxs : List String) (st : Gcp.GcpState) (res : Except String Unit)
    (st2 : Gcp.GcpState)
    (h : Gcp.getReports listing readObj pfxs st = some (res, st2)) :
    st2.metricValues = st.metricValues ∧ st2.counter = st.counter := by
  unfold Gcp.getReports at h
  rcases hf : Gcp.firstNonEmpty listing pfxs with er | opt
  · rw [hf] at h
    simp only [Option.some.injEq, Prod.mk.injEq] at h
    rw [← h.2]
    exact ⟨rfl, rfl⟩
  · rcases opt with _ | ⟨p, objs⟩
    · rw [hf] at h
      simp only [Option.some.injEq, Prod.mk.injEq] at h
      rw [← h.2]
      exact ⟨rfl, rfl⟩
    · rw [hf] at h
      simp only [Option.map_eq_some', Prod.mk.injEq] at h
      obtain ⟨r2, -, -, h2⟩ := h
      rw [← h2]
      constructor <;> (split <;> rfl)

/-- C4: when Query (AWS) or OldQuery (GCP) returns an error, both the
exported counter and the stored last-observed cumulative values are
exactly what they were before the call. -/
theorem claim4_failed_query_preserves_counters :
    (∀ (env : Aws.AwsEnv) (st : Aws.AwsState) (e : String) (st2 : Aws.AwsState) (p : Bool),
        Aws.query env st = some (.error e, st2, p) →
        st2.metricValues = st.metricValues ∧ st2.counter = st.counter) ∧
    (∀ (listing : String → Except String (List Gcp.ObjAttrs))
        (readObj : String → Except String (List Gcp.BillingElement))
        (pfxs : List String) (st : Gcp.GcpState) (e : String) (st2 : Gcp.GcpState),
        Gcp.oldQuery listing readObj pfxs st = some (.error e, st2) →
        st2.metricValues = st.metricValues ∧ st2.counter = st.counter) := by
  constructor
  · intro env st e st2 p h
    rcases query_ok_or_unchanged env st (.error e, st2, p) h with hk | hk
    · exact absurd hk (by simp)
    · have h2 : st2 = st := hk
      rw [h2]
      exact ⟨rfl, rfl⟩
  · intro listing readObj pfxs st e st2 h
    unfold Gcp.oldQuery at h
    rcases hg : Gcp.getReports listing readObj pfxs st with _ | ⟨res, st3⟩
    · rw [hg] at h
      exact absurd h (by simp)
    · rw [hg] at h
      rcases res with er | u
      · simp only [Option.some.injEq, Prod.mk.injEq, Except.error.injEq] at h
        rw [← h.2]
        exact ⟨(getReports_error_state _ _ _ _ _ _ hg ▸ rfl),
          (getReports_error_state _ _ _ _ _ _ hg ▸ rfl)⟩
      · exact absurd h (by simp)

/-- C4 witness: a listing failure on either provider surfaces the error
and leaves the counter state untouched. -/
theorem claim4_failed_query_preserves_counters_witness :
    Aws.query { rootAccountID := "1"
                listResult := .error "boom"
                getObject := fun _ => .error "x"
                closeResult := fun _ => .ok () } regAwsState =
      some (.error ("Error listing AWS bucket: " ++ "boom"), regAwsState, false) ∧
    (regAwsState.metricValues = regAwsState.metricValues ∧
      regAwsState.counter = regAwsState.counter) ∧
    Gcp.oldQuery (fun _ => .error "boom") (fun _ => .error "x") ["p-2017-01-"] regGcpState =
      some (.error ("Failed to list objects: " ++ "boom"), regGcpState) ∧
    (regGcpState.metricValues = regGcpState.metricValues ∧
      regGcpState.counter = regGcpState.counter) := by
  refine ⟨rfl, ?_, rfl, ?_⟩
  · exact claim4_failed_query_preserves_counters.1
      { rootAccountID := "1"
        listResult := .error "boom"
        getObject := fun _ => .error "x"
        closeResult := fun _ => .ok () }
      regAwsState ("Error listing AWS bucket: " ++ "boom") regAwsState false rfl
  · exact claim4_failed_query_preserves_counters.2 (fun _ => .error "boom")
      (fun _ => .error "x") ["p-2017-01-"] regGcpState
      ("Failed to list objects: " ++ "boom") regGcpState rfl

/-- A GCP billing element carrying one cumulative value for a fixed
grouping key. -/
def gcpSeqElem (pid svc cur : String) (v : ℚ) : Gcp.BillingElement :=
  { projectName := "", projectID := pid, serviceName := svc, measurements := []
    cost := { amount := "", currency := cur, value := v } }

/-- The grouping key shared by every element of one GCP sequence. -/
def seqKey (pid svc cur : String) : String := Gcp.groupKey (gcpSeqElem pid svc cur 0)

/-- One reconciliation pass per listed cumulative value, GCP side. -/
def gcpRunSeq (pid svc cur : String) (vs : List ℚ) (st : Gcp.GcpState) : Gcp.GcpState :=
  vs.foldl (fun s v => Gcp.applyElem s (gcpSeqElem pid svc cur v)) st

/-- An AWS billing element carrying one cumulative value for a fixed
grouping key. -/
def awsSeqElem (pid svc cur : String) (v : ℚ) : Aws.BillingElement :=
  { projectName := "", projectID := pid, serviceName := svc, costs := v, currency := cur }

/-- The grouping key shared by every element of one AWS sequence. -/
def awsSeqKey (pid svc cur : String) : String := Aws.groupKey (awsSeqElem pid svc cur 0)

/-- One reconciliation pass per listed cumulative value, AWS side; none
as soon as one pass panics on a negative delta. -/
def awsRunSeq (pid svc cur : String) : List ℚ → Aws.AwsState → Option Aws.AwsState
  | [], st => some st
  | v :: rest, st =>
    match Aws.applyElem st (awsSeqElem pid svc cur v) with
    | none => none
    | some st2 => awsRunSeq pid svc cur rest st2

/-- One GCP reconciliation step on a non-decreasing value stores the new
cumulative value and adds exactly the delta to the counter. -/
theorem gcp_apply_step (st : Gcp.GcpState) (pid svc cur : String) (v : ℚ)
    (h : (st.metricValues (seqKey pid svc cur)).getD 0 ≤ v) :
    (Gcp.applyElem st (gcpSeqElem pid svc cur v)).metricValues (seqKey pid svc cur) = some v ∧
    (Gcp.applyElem st (gcpSeqElem pid svc cur v)).counter (seqKey pid svc cur) =
      st.counter (seqKey pid svc cur) +
        (v - (st.metricValues (seqKey pid svc cur)).getD 0) := by
  have hkey : Gcp.groupKey (gcpSeqElem pid svc cur v) = seqKey pid svc cur := rfl
  have hval : Gcp.getValue (gcpSeqElem pid svc cur v) = v := rfl
  unfold Gcp.applyElem
  rw [hkey, hval]
  rcases hmv : st.metricValues (seqKey pid svc cur) with _ | last
  · rw [hmv] at h
    simp only [hmv, Option.isSome_none, Bool.false_eq_true, if_false, if_pos rfl,
      Option.getD_some]
    rw [if_neg (by simpa using h)]
    simp
  · rw [hmv, Option.getD_some] at h
    simp only [hmv, Option.isSome_some, if_true, Option.getD_some]
    rw [if_neg (by simp only [not_lt, sub_nonneg]; exact h)]
    simp

/-- One AWS reconciliation step on a non-decreasing value does not panic:
it stores the new cumulative value and adds exactly the delta to the
counter. -/
theorem aws_apply_step (st : Aws.AwsState) (pid svc cur : String) (v : ℚ)
    (h : (st.metricValues (awsSeqKey pid svc cur)).getD 0 ≤ v) :
    ∃ st2, Aws.applyElem st (awsSeqElem pid svc cur v) = some st2 ∧
      st2.metricValues (awsSeqKey pid svc cur) = some v ∧
      st2.counter (awsSeqKey pid svc cur) =
        st.counter (awsSeqKey pid svc cur) +
          (v - (st.metricValues (awsSeqKey pid svc cur)).getD 0) := by
  have hkey : Aws.groupKey (awsSeqElem pid svc cur v) = awsSeqKey pid svc cur := rfl
  have hcost : (awsSeqElem pid svc cur v).costs = v := rfl
  unfold Aws.applyElem
  rw [hkey, hcost]
  rcases hmv : st.metricValues (awsSeqKey pid svc cur) with _ | last
  · rw [hmv] at h
    simp only [hmv, Option.isSome_none, Bool.false_eq_true, if_false, if_pos rfl,
      Option.getD_some]
    rw [if_neg (by simpa using h)]
    exact ⟨_, rfl, by simp, by simp⟩
  · rw [hmv, Option.getD_some] at h
    simp only [hmv, Option.isSome_some, if_true, Option.getD_some]
    rw [if_neg (by simp only [not_lt, sub_nonneg]; exact h)]
    exact ⟨_, rfl, by simp, by simp⟩

/-- C5: over any run of reconciliation passes presenting non-decreasing
cumulative values for one key (starting from the stored last value, 0
for a missing key), no pass is skipped or panics and the total counter
movement telescopes to the final cumulative value minus the initial one,
on both reconcilers. -/
theorem claim5_telescoping :
    (∀ (pid svc cur : String) (vs : List ℚ) (st : Gcp.GcpState),
        List.Chain' (· ≤ ·) ((st.metricValues (seqKey pid svc cur)).getD 0 :: vs) →
        (gcpRunSeq pid svc cur vs st).counter (seqKey pid svc cur) =
          st.counter (seqKey pid svc cur) +
            (vs.getLastD ((st.metricValues (seqKey pid svc cur)).getD 0) -
              (st.metricValues (seqKey pid svc cur)).getD 0)) ∧
    (∀ (pid svc cur : String) (vs : List ℚ) (st : Aws.AwsState),
        List.Chain' (· ≤ ·) ((st.metricValues (awsSeqKey pid svc cur)).getD 0 :: vs) →
        ∃ st2, awsRunSeq pid svc cur vs st = some st2 ∧
          st2.counter (awsSeqKey pid svc cur) =
            st.counter (awsSeqKey pid svc cur) +
              (vs.getLastD ((st.metricValues (awsSeqKey pid svc cur)).getD 0) -
                (st.metricValues (awsSeqKey pid svc cur)).getD 0)) := by
  constructor
  · intro pid svc cur vs
    induction vs with
    | nil => intro st _; simp [gcpRunSeq]
    | cons v rest ih =>
      intro st h
      rw [List.chain'_cons] at h
      obtain ⟨h0, h1⟩ := h
      have hstep := gcp_apply_step st pid svc cur v h0
      have hmv2 : ((Gcp.applyElem st (gcpSeqElem pid svc cur v)).metricValues
          (seqKey pid svc cur)).getD 0 = v := by rw [hstep.1]; rfl
      unfold gcpRunSeq at ih ⊢
      rw [List.foldl_cons]
      have hrec := ih (Gcp.applyElem st (gcpSeqElem pid svc cur v)) (by rw [hmv2]; exact h1)
      rw [hrec, hmv2, hstep.2, List.getLastD_cons]
      ring
  · intro pid svc cur vs
    induction vs with
    | nil =>
      intro st _
      exact ⟨st, rfl, by simp⟩
    | cons v rest ih =>
      intro st h
      rw [List.chain'_cons] at h
      obtain ⟨h0, h1⟩ := h
      obtain ⟨st1, happ, hmv1, hcnt1⟩ := aws_apply_step st pid svc cur v h0
      have hch : List.Chain' (· ≤ ·)
          ((st1.metricValues (awsSeqKey pid svc cur)).getD 0 :: rest) := by
        rw [hmv1]
        exact h1
      obtain ⟨st2, hrun, hcnt2⟩ := ih st1 hch
      refine ⟨st2, ?_, ?_⟩
      · unfold awsRunSeq
        simp only [happ]
        exact hrun
      · rw [hcnt2, hcnt1, hmv1, List.getLastD_cons]
        simp only [Option.getD_some]
        ring

/-- C5 witness: a fresh key observed at 1 then 2 moves the counter by
exactly 2 on both providers. -/
theorem claim5_telescoping_witness :
    (List.Chain' (· ≤ ·)
        ((Gcp.GcpState.metricValues
            { reports := fun _ => { elements := [], hash := none }, monthPfx := ""
              metricValues := fun _ => none, counter := fun _ => 0 }
            (seqKey "a" "s" "c")).getD 0 :: [(1 : ℚ), 2]) ∧
      (gcpRunSeq "a" "s" "c" [(1 : ℚ), 2]
          { reports := fun _ => { elements := [], hash := none }, monthPfx := ""
            metricValues := fun _ => none, counter := fun _ => 0 }).counter
          (seqKey "a" "s" "c") = 0 + (2 - 0)) ∧
    (List.Chain' (· ≤ ·)
        ((Aws.AwsState.metricValues
            { reportHash := "", metricValues := fun _ => none, counter := fun _ => 0 }
            (awsSeqKey "a" "s" "c")).getD 0 :: [(1 : ℚ), 2]) ∧
      ∃ st2, awsRunSeq "a" "s" "c" [(1 : ℚ), 2]
          { reportHash := "", metricValues := fun _ => none, counter := fun _ => 0 } =
        some st2 ∧ st2.counter (awsSeqKey "a" "s" "c") = 0 + (2 - 0)) := by
  have hch : List.Chain' (· ≤ ·) ((0 : ℚ) :: [(1 : ℚ), 2]) := by
    rw [List.chain'_cons, List.chain'_cons]
    refine ⟨by norm_num, by norm_num, List.chain'_singleton 2⟩
  refine ⟨⟨hch, ?_⟩, hch, ?_⟩
  · have := claim5_telescoping.1 "a" "s" "c" [(1 : ℚ), 2]
      { reports := fun _ => { elements := [], hash := none }, monthPfx := ""
        metricValues := fun _ => none, counter := fun _ => 0 } hch
    simpa using this
  · obtain ⟨st2, hrun, hcnt⟩ := claim5_telescoping.2 "a" "s" "c" [(1 : ℚ), 2]
      { reportHash := "", metricValues := fun _ => none, counter := fun _ => 0 } hch
    exact ⟨st2, hrun, by simpa using hcnt⟩

/-- C10: an AWS Query that succeeded leaves a state whose recorded report
hash short-circuits the next run: the second fetch succeeds without
parsing anything and without changing any state (hence no counter or
stored-value change); likewise a GCP report slot whose cached hash equals
the listed object hash is skipped, returning the cache unchanged without
consulting the object store. -/
theorem claim10_hash_dedup :
    (∀ (env : Aws.AwsEnv) (st st2 : Aws.AwsState) (p : Bool),
        Aws.query env st = some (.ok (), st2, p) →
        Aws.query env st2 = some (.ok (), st2, false)) ∧
    (∀ (readObj : String → Except String (List Gcp.BillingElement))
        (r : Fin 32 → Gcp.Report) (a : Gcp.ObjAttrs) (j : Fin 32),
        ¬ a.name.toList.length < 8 →
        atoi (Gcp.seqSlice a.name) = some ((j.val : Int) + 1) →
        (r j).hash = some a.md5 →
        Gcp.getReportFile readObj r a = some r) := by
  constructor
  · intro env st st2 p h
    unfold Aws.query at h ⊢
    rcases hL : env.listResult with e | objs
    · rw [hL] at h
      exact absurd h (by simp)
    · simp only [hL] at h ⊢
      rcases hS : Aws.selectObject objs with _ | kh
      · simp only [hS] at h
        exact absurd h (by simp)
      · simp only [hS] at h ⊢
        by_cases hH : st.reportHash = kh.2
        · rw [if_pos hH] at h
          simp only [Option.some.injEq, Prod.mk.injEq] at h
          obtain ⟨-, h2, -⟩ := h
          subst h2
          rw [if_pos hH]
        · rw [if_neg hH] at h
          rcases hG : env.getObject kh.1 with e | csvSrc
          · simp only [hG] at h
            exact absurd h (by simp)
          · simp only [hG] at h
            rcases hR : Aws.readCSV csvSrc with e | elems
            · simp only [hR] at h
              exact absurd h (by simp)
            · simp only [hR] at h
              rcases hC : env.closeResult kh.1 with e | u
              · simp only [hC] at h
                exact absurd h (by simp)
              · simp only [hC] at h
                rw [Option.map_eq_some'] at h
                obtain ⟨st1, -, h2⟩ := h
                simp only [Prod.mk.injEq] at h2
                obtain ⟨-, hst, -⟩ := h2
                rw [← hst, if_pos rfl]
  · intro readObj r a j h8 hseq hhash
    have hj := j.isLt
    unfold Gcp.getReportFile
    rw [if_neg h8]
    simp only [hseq, add_sub_cancel_right, Int.toNat_natCast, Fin.eta]
    rw [dif_pos ⟨Int.natCast_nonneg _, by exact_mod_cast hj⟩]
    rw [if_pos hhash]

/-- Environment for the dedup witness: one listed report with hash h. -/
def dedupEnv : Aws.AwsEnv :=
  { rootAccountID := "r"
    listResult := .ok [("k", "h")]
    getObject := fun _ => .ok (.ok [])
    closeResult := fun _ => .ok () }

/-- AWS state before the first fetch of the dedup witness. -/
def dedupSt0 : Aws.AwsState :=
  { reportHash := "", metricValues := fun _ => none, counter := fun _ => 0 }

/-- AWS state after the first fetch of the dedup witness. -/
def dedupSt1 : Aws.AwsState :=
  { reportHash := "h", metricValues := fun _ => none, counter := fun _ => 0 }

/-- C10 witness: the first fetch parses and records hash h; the second
fetch against the same listing is a no-parse no-change success; and the
GCP slot skip at a concrete cached report. -/
theorem claim10_hash_dedup_witness :
    Aws.query dedupEnv dedupSt0 = some (.ok (), dedupSt1, true) ∧
    Aws.query dedupEnv dedupSt1 = some (.ok (), dedupSt1, false) ∧
    Gcp.getReportFile (fun _ => .error "io")
      (fun _ => { elements := [], hash := some "m" }) { name := "x-01.json", md5 := "m" } =
      some (fun _ => { elements := [], hash := some "m" }) := by
  refine ⟨rfl, claim10_hash_dedup.1 dedupEnv dedupSt0 dedupSt1 true rfl, ?_⟩
  exact claim10_hash_dedup.2 (fun _ => .error "io")
    (fun _ => { elements := [], hash := some "m" }) { name := "x-01.json", md5 := "m" }
    (0 : Fin 32) (by decide) (by decide) rfl
